import Mathlib

/-!
Verification of the batching/delivery core of the SEO Data SDK.

The subject is `src/core/DataBatcher.js`: a bounded in-memory queue of
collection events with timer-, capacity- and unload-triggered flushes,
and a retry policy that re-inserts a truncated tail of a failed batch.

The embedding is a small-step state machine over `BState`.  The host is
single-threaded and event-driven, so the only interleaving point is the
`await this.sendBatch(batch)` suspension inside `flush()`.  We therefore
split `flush()` into

  * `flushBeginStep` — the synchronous prefix of `flush()`: the
    empty/in-progress check, setting `isProcessing`, snapshotting and
    clearing the queue, and handing the snapshot to `sendBatch`
    (recorded in the `sent` log; the batch then sits in `inFlight`);
  * `resolveStep`   — the asynchronous remainder: the `try/catch/finally`
    continuation that runs when the transport settles, taking the
    external outcome as an oracle (success, failure, rejection or a
    synchronous throw of the callback all funnel into the same
    `catch`, so a single Boolean outcome is faithful).

`add`, the timer callback, `clear`, `stopBatchInterval` and `destroy`
are synchronous and become single steps.
-/

namespace SDK

/-- A JavaScript value passed to `add(data)`.  The code's only test on it
is the truthiness check `if (!data) return;`: `null` and `undefined` are
falsy, while every object — including the empty object — is truthy.
Events are otherwise opaque; we model an object shallowly as its list of
own enumerable string fields. -/
inductive JSData where
  | jsNull : JSData
  | jsUndefined : JSData
  | obj (fields : List (String × String)) : JSData
deriving DecidableEq, Repr

/-- JS truthiness of the values `add` can receive: `!data` holds exactly
for `null`/`undefined`; any object (even `{}`) is truthy. -/
def JSData.falsy : JSData → Bool
  | .jsNull => true
  | .jsUndefined => true
  | .obj _ => false

/-- A queued event: `add` pushes `{...data, _timestamp: Date.now()}`, a
shallow copy of the event object extended with the enqueue timestamp.
We keep the copied fields and the `_timestamp` value separately. -/
structure StoredEvent where
  fields : List (String × String)
  timestamp : Nat
deriving DecidableEq, Repr

/-- The stored form of a (truthy) event object at enqueue time `now`. -/
def storedOf (d : JSData) (now : Nat) : StoredEvent :=
  match d with
  | .obj fields => ⟨fields, now⟩
  | _ => ⟨[], now⟩

/-- `batch.slice(-k)` for `k > 0`: the last `k` elements of `l` (all of
`l` when `l` is shorter than `k`), in their original order. -/
def sliceLast (k : Nat) (l : List α) : List α :=
  l.drop (l.length - k)

/-- State of one `DataBatcher` instance.

Fields `apiEndpoint`, `apiKey`, `batchInterval`, `queue`, `maxQueueSize`
and `isProcessing` mirror the constructor's instance fields; the
callback is kept as its presence (`hasCallback`), which is all
`sendBatch` branches on besides invoking it.  `intervalActive` models
whether the `setInterval` handle from `startBatchInterval` is live.

`inFlight` holds the snapshot handed to `sendBatch` while `flush()` is
suspended awaiting it, and `sent` is the history of all batches handed
to `sendBatch` (the transport-attempt log used to count invocations). -/
structure BState where
  apiEndpoint : String
  apiKey : String
  batchInterval : Nat
  hasCallback : Bool
  queue : List StoredEvent
  maxQueueSize : Nat
  isProcessing : Bool
  intervalActive : Bool
  inFlight : Option (List StoredEvent)
  sent : List (List StoredEvent)
deriving DecidableEq, Repr

/-- The constructor
`constructor(apiEndpoint, apiKey, batchInterval = 30000, onDataCallback = null)`:
empty queue, `maxQueueSize = 50` (hard-coded), `isProcessing = false`,
and `startBatchInterval()` is called, so the timer is live.  An absent
endpoint is the empty string (falsy), as produced by the SDK wrapper. -/
def mkBatcher (apiEndpoint apiKey : String) (batchInterval : Nat)
    (hasCallback : Bool) : BState :=
  { apiEndpoint := apiEndpoint
    apiKey := apiKey
    batchInterval := batchInterval
    hasCallback := hasCallback
    queue := []
    maxQueueSize := 50
    isProcessing := false
    intervalActive := true
    inFlight := none
    sent := [] }

/-- The synchronous prefix of `flush()`:

    if (this.queue.length === 0 || this.isProcessing) return;
    this.isProcessing = true;
    const batch = [...this.queue];
    this.queue = [];
    ... this.sendBatch(batch) ...   // suspends here

The handoff of `batch` to `sendBatch` is recorded in `sent`, and the
batch is parked in `inFlight` until `resolveStep` settles it. -/
def flushBeginStep (s : BState) : BState :=
  if s.queue.isEmpty || s.isProcessing then s
  else
    { s with
      isProcessing := true
      queue := []
      inFlight := some s.queue
      sent := s.sent ++ [s.queue] }

/-- Whether `sendBatch(batch)` settles successfully, given the external
outcome `oracle` of the transport:
  * a configured callback's result is the callback's outcome
    (a rejection or synchronous throw is re-thrown, hence a failure);
  * with no callback and a falsy (empty) endpoint, `sendBatch` only logs
    and returns `{ success: true, logged: true }` — always a success;
  * otherwise the `fetch` outcome decides (non-2xx throws). -/
def sendSuccess (s : BState) (oracle : Bool) : Bool :=
  if s.hasCallback then oracle
  else if s.apiEndpoint = "" then true
  else oracle

/-- The continuation of `flush()` after `await this.sendBatch(batch)`
settles.  On success nothing more happens; on failure the `catch` block
runs

    this.queue = [...batch.slice(-this.maxQueueSize / 2), ...this.queue];

re-inserting the last `maxQueueSize / 2` events of the failed batch at
the head of the (possibly since-grown) queue; the `finally` block then
clears `isProcessing` in either case.  When no flush is awaiting the
transport (`inFlight = none`) there is nothing to settle. -/
def resolveStep (oracle : Bool) (s : BState) : BState :=
  match s.inFlight with
  | none => s
  | some batch =>
    if sendSuccess s oracle then
      { s with inFlight := none, isProcessing := false }
    else
      { s with
        inFlight := none
        isProcessing := false
        queue := sliceLast (s.maxQueueSize / 2) batch ++ s.queue }

/-- `add(data)`:

    if (!data) return;
    this.queue.push({ ...data, _timestamp: Date.now() });
    if (this.queue.length >= this.maxQueueSize) this.flush();

The capacity-triggered `this.flush()` is not awaited; only its
synchronous prefix (`flushBeginStep`) runs before `add` returns. -/
def addStep (d : JSData) (now : Nat) (s : BState) : BState :=
  if d.falsy then s
  else
    let s1 := { s with queue := s.queue ++ [storedOf d now] }
    if s1.maxQueueSize ≤ s1.queue.length then flushBeginStep s1 else s1

/-- A sequence of `add` calls, each a (data, enqueue-time) pair. -/
def addAll : List (JSData × Nat) → BState → BState
  | [], s => s
  | p :: ds, s => addAll ds (addStep p.1 p.2 s)

/-- The stored events a sequence of `add` calls actually enqueues: the
truthy ones, copied and timestamped, in call order. -/
def enqueuedOf (ds : List (JSData × Nat)) : List StoredEvent :=
  ds.filterMap (fun p => if p.1.falsy then none else some (storedOf p.1 p.2))

/-- One firing of the `setInterval` callback from `startBatchInterval`:
`if (this.queue.length > 0) this.flush();` (synchronous prefix), only
while the handle has not been cleared. -/
def timerTick (s : BState) : BState :=
  if s.intervalActive && !s.queue.isEmpty then flushBeginStep s else s

/-- `stopBatchInterval()`: clears the interval handle. -/
def stopBatchIntervalStep (s : BState) : BState :=
  { s with intervalActive := false }

/-- `clear()`: `this.queue = [];` and nothing else. -/
def clearStep (s : BState) : BState :=
  { s with queue := [] }

/-- `destroy()`: `this.stopBatchInterval(); this.flush();` — the final
flush is fire-and-forget, so only its synchronous prefix runs. -/
def destroyStep (s : BState) : BState :=
  flushBeginStep (stopBatchIntervalStep s)

/-- `getQueueSize()`: `return this.queue.length;`. -/
def getQueueSize (s : BState) : Nat :=
  s.queue.length

/-- Configuration object accepted by the `SEODataSDK` constructor, with
the option names the specification lists as recognized.  The `capacity`
key is representable here (any extra key is spread into `this.config`),
which lets us state claims about it. -/
structure SDKConfig where
  apiEndpoint : String := ""
  apiKey : String := ""
  batchInterval : Nat := 30000
  capacity : Option Nat := none
deriving DecidableEq, Repr

/-- The batcher the SDK wrapper builds:

    this.config = { apiEndpoint: config.apiEndpoint || '', ...,
                    batchInterval: config.batchInterval || 30000, ... };
    this.dataBatcher = new DataBatcher(this.config.apiEndpoint,
      this.config.apiKey, this.config.batchInterval);

No callback is passed, and no capacity value is consulted anywhere on
this path. -/
def mkSDKBatcher (c : SDKConfig) : BState :=
  mkBatcher c.apiEndpoint c.apiKey
    (if c.batchInterval = 0 then 30000 else c.batchInterval) false

/-- A list of `n` distinct concrete events with their enqueue times. -/
def natEvents (n : Nat) : List (JSData × Nat) :=
  (List.range n).map (fun i => (JSData.obj [("i", toString i)], i))

/-! ### Helper lemmas -/

theorem flushBeginStep_of_processing (s : BState) (h : s.isProcessing = true) :
    flushBeginStep s = s := by
  simp [flushBeginStep, h]

theorem addStep_of_processing (d : JSData) (t : Nat) (s : BState)
    (h : s.isProcessing = true) :
    addStep d t s = { s with queue := s.queue ++ enqueuedOf [(d, t)] } := by
  cases hd : d.falsy with
  | true => simp [addStep, hd, enqueuedOf]
  | false => simp [addStep, hd, enqueuedOf, flushBeginStep, h]

theorem addAll_of_processing (ds : List (JSData × Nat)) (s : BState)
    (h : s.isProcessing = true) :
    addAll ds s = { s with queue := s.queue ++ enqueuedOf ds } := by
  induction ds generalizing s with
  | nil => simp [addAll, enqueuedOf]
  | cons p ds ih =>
      rw [show addAll (p :: ds) s = addAll ds (addStep p.1 p.2 s) from rfl,
        addStep_of_processing p.1 p.2 s h,
        ih { s with queue := s.queue ++ enqueuedOf [(p.1, p.2)] } h]
      cases hp : p.1.falsy <;>
        simp [enqueuedOf, List.filterMap_cons, hp, storedOf]

theorem addStep_below (d : JSData) (t : Nat) (s : BState)
    (hd : d.falsy = false) (hlen : s.queue.length + 1 < s.maxQueueSize) :
    addStep d t s = { s with queue := s.queue ++ [storedOf d t] } := by
  have : ¬ s.maxQueueSize ≤ s.queue.length + 1 := by omega
  simp [addStep, hd, this]

theorem addAll_below (ds : List (JSData × Nat)) (s : BState)
    (hproc : s.isProcessing = false)
    (hall : ∀ p ∈ ds, p.1.falsy = false)
    (hlen : s.queue.length + ds.length < s.maxQueueSize) :
    addAll ds s = { s with queue := s.queue ++ ds.map (fun p => storedOf p.1 p.2) } := by
  induction ds generalizing s with
  | nil => simp [addAll]
  | cons p ds ih =>
      have hp : p.1.falsy = false := hall p (by simp)
      have hstep := addStep_below p.1 p.2 s hp (by simp at hlen; omega)
      rw [show addAll (p :: ds) s = addAll ds (addStep p.1 p.2 s) from rfl, hstep,
        ih _ (by simpa using hproc) (fun q hq => hall q (by simp [hq]))
          (by simp at hlen ⊢; omega)]
      simp

theorem addAll_append (l1 l2 : List (JSData × Nat)) (s : BState) :
    addAll (l1 ++ l2) s = addAll l2 (addAll l1 s) := by
  induction l1 generalizing s with
  | nil => simp [addAll]
  | cons p l1 ih => simp [addAll, ih]

theorem flushBeginStep_queue_le (s : BState) :
    (flushBeginStep s).queue.length ≤ s.queue.length := by
  unfold flushBeginStep
  split <;> simp

theorem flushBeginStep_run (s : BState) (hproc : s.isProcessing = false)
    (hq : s.queue ≠ []) :
    flushBeginStep s =
      { s with isProcessing := true, queue := [], inFlight := some s.queue,
               sent := s.sent ++ [s.queue] } := by
  have : s.queue.isEmpty = false := by
    cases hqq : s.queue with
    | nil => exact absurd hqq hq
    | cons a l => simp
  simp [flushBeginStep, this, hproc]

theorem addStep_trigger (d : JSData) (t : Nat) (s : BState)
    (hd : d.falsy = false) (hproc : s.isProcessing = false)
    (hlen : s.queue.length + 1 = s.maxQueueSize) :
    addStep d t s =
      { s with isProcessing := true, queue := [],
               inFlight := some (s.queue ++ [storedOf d t]),
               sent := s.sent ++ [s.queue ++ [storedOf d t]] } := by
  have hge : s.maxQueueSize ≤ s.queue.length + 1 := by omega
  have h1 : addStep d t s
      = flushBeginStep { s with queue := s.queue ++ [storedOf d t] } := by
    simp [addStep, hd, hge]
  rw [h1, flushBeginStep_run _ (by simpa using hproc) (by simp)]

theorem resolveStep_none (o : Bool) (s : BState) (h : s.inFlight = none) :
    resolveStep o s = s := by
  simp [resolveStep, h]

theorem resolveStep_some_processing (o : Bool) (s : BState)
    (b : List StoredEvent) (h : s.inFlight = some b) :
    (resolveStep o s).isProcessing = false := by
  simp only [resolveStep, h]
  split <;> rfl

theorem flushBeginStep_intervalOff (s : BState) :
    flushBeginStep { s with intervalActive := false }
      = { flushBeginStep s with intervalActive := false } := by
  unfold flushBeginStep
  by_cases h : (s.queue.isEmpty || s.isProcessing) = true <;> simp [h]

theorem addStep_intervalOff (d : JSData) (t : Nat) (s : BState) :
    addStep d t { s with intervalActive := false }
      = { addStep d t s with intervalActive := false } := by
  cases hd : d.falsy with
  | true => simp [addStep, hd]
  | false =>
      by_cases hge : s.maxQueueSize ≤ s.queue.length + 1
      · by_cases hp : s.isProcessing = true <;>
          simp [addStep, hd, hge, flushBeginStep, hp]
      · simp [addStep, hd, hge, flushBeginStep]

/-! ### Claim theorems -/

/-- C1: a `flush()` call on an empty queue, or while a flush is already in
progress, returns immediately: the transport is not invoked and the queue
(indeed the whole state) is unchanged.  Consequently, when a flush is
begun from an idle state and arbitrary `add` calls happen while it is
suspended awaiting the transport, the transport-invocation log grows by
exactly one entry — the first call's snapshot — an overlapping second
`flush()` is a no-op, and the events added during the suspension remain
queued for a later flush. -/
theorem flush_overlap_single_invocation (s : BState) :
    ((s.queue = [] ∨ s.isProcessing = true) → flushBeginStep s = s) ∧
    (s.isProcessing = false → s.queue ≠ [] → ∀ ds : List (JSData × Nat),
      (addAll ds (flushBeginStep s)).sent = s.sent ++ [s.queue] ∧
      flushBeginStep (addAll ds (flushBeginStep s)) = addAll ds (flushBeginStep s) ∧
      (addAll ds (flushBeginStep s)).queue = enqueuedOf ds) := by
  constructor
  · rintro (hq | hp)
    · simp [flushBeginStep, hq]
    · simp [flushBeginStep, hp]
  · intro hproc hq ds
    rw [flushBeginStep_run s hproc hq,
      addAll_of_processing ds
        { s with isProcessing := true, queue := [], inFlight := some s.queue,
                 sent := s.sent ++ [s.queue] } rfl]
    exact ⟨by simp, flushBeginStep_of_processing _ rfl, by simp⟩

/-- Concrete instance for C1: one queued event, a flush begun, one truthy
and one falsy `add` during the suspension. -/
def c1State : BState :=
  addStep (JSData.obj [("a", "1")]) 1 (mkBatcher "https://e" "k" 30000 false)

/-- The `add` calls issued while the C1 flush is suspended. -/
def c1Adds : List (JSData × Nat) :=
  [(JSData.obj [("b", "2")], 2), (JSData.jsNull, 3)]

/-- Witness for C1 at a concrete state. -/
theorem flush_overlap_single_invocation_witness :
    (addAll c1Adds (flushBeginStep c1State)).sent = c1State.sent ++ [c1State.queue] ∧
    flushBeginStep (addAll c1Adds (flushBeginStep c1State))
      = addAll c1Adds (flushBeginStep c1State) ∧
    (addAll c1Adds (flushBeginStep c1State)).queue = enqueuedOf c1Adds :=
  (flush_overlap_single_invocation c1State).2 (by decide) (by decide) c1Adds

/-- C2: when the transport of an in-flight batch fails, the `catch` block
re-inserts `sliceLast 25` of the failed batch (with `maxQueueSize = 50`,
`maxQueueSize / 2 = 25`) at the head of the current queue, ahead of
whatever was added during the failed attempt; that slice has length
`min batch.length 25` (all of a batch of ≤ 25), it is a suffix of the
batch (original relative order, the older prefix dropped), and for a
batch of 50 events exactly 25 are re-queued. -/
theorem failed_flush_requeues_tail (s : BState) (batch : List StoredEvent)
    (o : Bool) (hb : s.inFlight = some batch) (hcap : s.maxQueueSize = 50)
    (hfail : sendSuccess s o = false) :
    (resolveStep o s).queue = sliceLast 25 batch ++ s.queue ∧
    (sliceLast 25 batch).length = min batch.length 25 ∧
    batch.take (batch.length - 25) ++ sliceLast 25 batch = batch ∧
    (batch.length = 50 → (sliceLast 25 batch).length = 25) := by
  have h2 : (sliceLast 25 batch).length = min batch.length 25 := by
    simp [sliceLast]; omega
  refine ⟨by simp [resolveStep, hb, hfail, hcap], h2, ?_, ?_⟩
  · simp only [sliceLast]
    exact List.take_append_drop (batch.length - 25) batch
  · intro h50
    rw [h2, h50]
    omega

/-- Concrete instance for C2: 50 adds (the 50th triggers the flush, so a
50-event batch is in flight), then one more add during the suspension. -/
def c2State : BState :=
  addAll [(JSData.obj [("g", "1")], 99)]
    (addAll (natEvents 50) (mkBatcher "https://e" "k" 1000 false))

/-- The 50-event batch handed to the transport in the C2 instance. -/
def stored50 : List StoredEvent :=
  (natEvents 50).map (fun p => storedOf p.1 p.2)

set_option maxRecDepth 20000 in
/-- Witness for C2 at a concrete state. -/
theorem failed_flush_requeues_tail_witness :
    (resolveStep false c2State).queue = sliceLast 25 stored50 ++ c2State.queue ∧
    (sliceLast 25 stored50).length = min stored50.length 25 ∧
    stored50.take (stored50.length - 25) ++ sliceLast 25 stored50 = stored50 ∧
    (stored50.length = 50 → (sliceLast 25 stored50).length = 25) :=
  failed_flush_requeues_tail c2State stored50 false (by decide) (by decide)
    (by decide)

/-- A reachable state refuting C3: one event is added and flushed; while
the flush is suspended awaiting the transport, 51 more events are added
(each capacity-triggered `flush()` no-ops on the processing flag); the
transport then succeeds.  The resulting state has 51 > 50 queued events
with no flush in progress, none in flight, and nothing pending that
would shrink the queue — the excess is persistent, not transient. -/
def overState : BState :=
  resolveStep true
    (addAll (natEvents 51)
      (flushBeginStep
        (addStep (JSData.obj [("a", "1")]) 0 (mkBatcher "https://e" "k" 30000 false))))

set_option maxRecDepth 20000 in
/-- Counterexample to C3: a reachable state whose queue length exceeds
the capacity 50 while no flush is in progress or in flight. -/
theorem queue_capacity_invariant_cex :
    50 < overState.queue.length ∧ overState.isProcessing = false ∧
    overState.inFlight = none := by decide

/-- C3 (amended): while no flush is in progress, every synchronous step
preserves "queue length < capacity": an `add` either stays below the
threshold or triggers an immediate flush that empties the queue, and
`flush()`, a timer tick and `clear()` never grow the queue.  (As stated
the claim fails: `add` calls during an in-flight flush can push the
length past capacity persistently, since their overflow-triggered
flushes no-op on the processing flag — see the counterexample.) -/
theorem capacity_preserved_when_idle (s : BState) (d : JSData) (t : Nat)
    (hproc : s.isProcessing = false) (hlt : s.queue.length < s.maxQueueSize) :
    (addStep d t s).queue.length < s.maxQueueSize ∧
    (flushBeginStep s).queue.length < s.maxQueueSize ∧
    (timerTick s).queue.length < s.maxQueueSize ∧
    (clearStep s).queue.length < s.maxQueueSize := by
  have hmax : 0 < s.maxQueueSize := Nat.lt_of_le_of_lt (Nat.zero_le _) hlt
  refine ⟨?_, Nat.lt_of_le_of_lt (flushBeginStep_queue_le s) hlt, ?_, ?_⟩
  · by_cases hd : d.falsy = true
    · simpa [addStep, hd] using hlt
    · have hd' : d.falsy = false := by simpa using hd
      by_cases hge : s.maxQueueSize ≤ s.queue.length + 1
      · have heq : addStep d t s
            = flushBeginStep { s with queue := s.queue ++ [storedOf d t] } := by
          simp [addStep, hd', hge]
        rw [heq, flushBeginStep_run _ (by simpa using hproc) (by simp)]
        simpa using hmax
      · rw [addStep_below d t s hd' (by omega)]
        simp
        omega
  · unfold timerTick
    split
    · exact Nat.lt_of_le_of_lt (flushBeginStep_queue_le s) hlt
    · exact hlt
  · simpa [clearStep] using hmax

/-- Witness for the amended C3 at a concrete state. -/
theorem capacity_preserved_when_idle_witness :
    (addStep (JSData.obj [("b", "2")]) 2 c1State).queue.length
        < c1State.maxQueueSize ∧
    (flushBeginStep c1State).queue.length < c1State.maxQueueSize ∧
    (timerTick c1State).queue.length < c1State.maxQueueSize ∧
    (clearStep c1State).queue.length < c1State.maxQueueSize :=
  capacity_preserved_when_idle c1State (JSData.obj [("b", "2")]) 2
    (by decide) (by decide)

/-- C4: starting from a fresh batcher, a sequence of `add` calls with
truthy events appends, per call, a shallow copy of the event extended
with its enqueue timestamp at the tail of the queue; while fewer than 50
events have been added no flush occurs (`sent` stays empty, no flush in
progress) and `getQueueSize` equals the number of events added; the add
that makes the length reach 50 dispatches exactly one flush before
returning — `sent` then holds exactly the one 50-event snapshot, the
queue is cleared, and the snapshot is in flight (the dispatch is
fire-and-forget: `addStep` runs only the synchronous prefix of
`flush()`, never awaiting the transport). -/
theorem add_appends_and_capacity_triggers_flush (ds : List (JSData × Nat))
    (e k : String) (iv : Nat) (cb : Bool)
    (hall : ∀ p ∈ ds, p.1.falsy = false) :
    (ds.length < 50 →
      addAll ds (mkBatcher e k iv cb)
        = { mkBatcher e k iv cb with queue := ds.map (fun p => storedOf p.1 p.2) } ∧
      getQueueSize (addAll ds (mkBatcher e k iv cb)) = ds.length ∧
      (addAll ds (mkBatcher e k iv cb)).sent = [] ∧
      (addAll ds (mkBatcher e k iv cb)).isProcessing = false) ∧
    (ds.length = 50 →
      (addAll ds (mkBatcher e k iv cb)).sent
        = [ds.map (fun p => storedOf p.1 p.2)] ∧
      (addAll ds (mkBatcher e k iv cb)).queue = [] ∧
      (addAll ds (mkBatcher e k iv cb)).inFlight
        = some (ds.map (fun p => storedOf p.1 p.2)) ∧
      (addAll ds (mkBatcher e k iv cb)).isProcessing = true) := by
  constructor
  · intro hlt
    rw [addAll_below ds (mkBatcher e k iv cb) rfl hall
      (by simpa [mkBatcher] using hlt)]
    exact ⟨by simp [mkBatcher], by simp [getQueueSize, mkBatcher], rfl, rfl⟩
  · intro h50
    obtain (hnil | ⟨L, b, hds⟩) := ds.eq_nil_or_concat
    · rw [hnil] at h50
      simp at h50
    · rw [List.concat_eq_append] at hds
      subst hds
      have hL : L.length = 49 := by
        simp at h50
        omega
      have hallL : ∀ p ∈ L, p.1.falsy = false := fun p hp => hall p (by simp [hp])
      have hb : b.1.falsy = false := hall b (by simp)
      rw [addAll_append,
        addAll_below L (mkBatcher e k iv cb) rfl hallL (by simp [mkBatcher]; omega),
        show ∀ s, addAll [b] s = addStep b.1 b.2 s from fun s => rfl,
        addStep_trigger b.1 b.2 _ hb rfl (by simp [mkBatcher, hL])]
      exact ⟨by simp [mkBatcher], rfl, by simp [mkBatcher], rfl⟩

set_option maxRecDepth 20000 in
/-- Witness for C4: 3 adds leave 3 queued and nothing sent; 50 adds send
exactly one 50-event snapshot and leave the queue empty. -/
theorem add_appends_and_capacity_triggers_flush_witness :
    (getQueueSize (addAll (natEvents 3) (mkBatcher "" "" 30000 false)) = 3 ∧
      (addAll (natEvents 3) (mkBatcher "" "" 30000 false)).sent = []) ∧
    ((addAll (natEvents 50) (mkBatcher "" "" 30000 false)).sent
        = [(natEvents 50).map (fun p => storedOf p.1 p.2)] ∧
      (addAll (natEvents 50) (mkBatcher "" "" 30000 false)).queue = []) := by
  have h3 := add_appends_and_capacity_triggers_flush (natEvents 3) "" "" 30000 false
    (by decide)
  have h50 := add_appends_and_capacity_triggers_flush (natEvents 50) "" "" 30000 false
    (by decide)
  exact ⟨⟨(h3.1 (by decide)).2.1, (h3.1 (by decide)).2.2.1⟩,
    ⟨(h50.2 (by decide)).1, (h50.2 (by decide)).2.1⟩⟩

/-- Counterexample to C5: `add` only tests JS truthiness (`if (!data)
return;`), and an empty object `{}` is truthy, so `add({})` is not a
no-op — it appends `{ _timestamp: ... }` and grows the queue from 0
to 1. -/
theorem empty_object_not_ignored_cex :
    getQueueSize (addStep (JSData.obj []) 7 (mkBatcher "" "" 30000 false)) = 1 ∧
    getQueueSize (mkBatcher "" "" 30000 false) = 0 ∧
    addStep (JSData.obj []) 7 (mkBatcher "" "" 30000 false)
      = { mkBatcher "" "" 30000 false with queue := [⟨[], 7⟩] } := by decide

/-- C5 (amended): for the falsy values `null`/`undefined`, `add` is a
complete no-op (nothing queued, state unchanged, no error — `addStep` is
total); but any object, including the empty object `{}`, is truthy and
is appended to the queue with its timestamp. -/
theorem falsy_add_noop (s : BState) (t : Nat) :
    (∀ d : JSData, d.falsy = true → addStep d t s = s) ∧
    (∀ fields, s.queue.length + 1 < s.maxQueueSize →
      addStep (JSData.obj fields) t s
        = { s with queue := s.queue ++ [⟨fields, t⟩] }) := by
  constructor
  · intro d hd
    simp [addStep, hd]
  · intro fields hlen
    exact addStep_below (JSData.obj fields) t s rfl hlen

/-- Witness for the amended C5 at concrete inputs. -/
theorem falsy_add_noop_witness :
    (addStep JSData.jsNull 7 (mkBatcher "" "" 30000 false)
        = mkBatcher "" "" 30000 false) ∧
    addStep (JSData.obj [("a", "1")]) 7 (mkBatcher "" "" 30000 false)
      = { mkBatcher "" "" 30000 false with queue := [⟨[("a", "1")], 7⟩] } := by
  have h := falsy_add_noop (mkBatcher "" "" 30000 false) 7
  exact ⟨h.1 JSData.jsNull (by decide),
    by simpa using h.2 [("a", "1")] (by decide)⟩

/-- C6: a flush performed with no callback and no (i.e. an empty, falsy)
endpoint configured reports success regardless of any external outcome:
`sendBatch` only logs and resolves, so after the flush settles the batch
is discarded, the queue is empty (absent interim adds), the flush is
complete, and — all steps being total functions — no error reaches any
caller of `add` or `flush`. -/
theorem no_transport_flush_reports_success (s : BState) (o : Bool)
    (hcb : s.hasCallback = false) (hep : s.apiEndpoint = "")
    (hproc : s.isProcessing = false) (hq : s.queue ≠ []) :
    sendSuccess s o = true ∧
    (resolveStep o (flushBeginStep s)).queue = [] ∧
    (resolveStep o (flushBeginStep s)).isProcessing = false ∧
    (resolveStep o (flushBeginStep s)).inFlight = none ∧
    (resolveStep o (flushBeginStep s)).sent = s.sent ++ [s.queue] := by
  rw [flushBeginStep_run s hproc hq]
  refine ⟨by simp [sendSuccess, hcb, hep], ?_, ?_, ?_, ?_⟩ <;>
    simp [resolveStep, sendSuccess, hcb, hep]

/-- Concrete instance for C6: one queued event, no endpoint, no callback. -/
def c6State : BState :=
  addStep (JSData.obj [("a", "1")]) 1 (mkBatcher "" "" 30000 false)

/-- Witness for C6 at a concrete state. -/
theorem no_transport_flush_reports_success_witness :
    sendSuccess c6State false = true ∧
    (resolveStep false (flushBeginStep c6State)).queue = [] ∧
    (resolveStep false (flushBeginStep c6State)).isProcessing = false ∧
    (resolveStep false (flushBeginStep c6State)).inFlight = none ∧
    (resolveStep false (flushBeginStep c6State)).sent
      = c6State.sent ++ [c6State.queue] :=
  no_transport_flush_reports_success c6State false (by decide) (by decide)
    (by decide) (by decide)

/-- Counterexample to C7: the configuration's `capacity` value is never
consulted — supplying `capacity = 3` still yields the hard-coded
threshold 50, and a third `add` neither forces a flush nor empties the
queue (3 events stay buffered, no transport attempt), contradicting
"the maximum number of buffered events before a forced flush equals c". -/
theorem capacity_option_cex :
    (mkSDKBatcher { capacity := some 3 }).maxQueueSize = 50 ∧
    getQueueSize (addAll (natEvents 3) (mkSDKBatcher { capacity := some 3 })) = 3 ∧
    (addAll (natEvents 3) (mkSDKBatcher { capacity := some 3 })).sent = [] := by
  decide

/-- C7 (amended): no `capacity` option is recognized anywhere on the
construction path; the maximum number of buffered events before a forced
flush is the hard-coded 50 for every configuration (not merely the
default for an absent option) and for every direct construction. -/
theorem capacity_hardcoded (c : SDKConfig) (e k : String) (iv : Nat) (cb : Bool) :
    (mkSDKBatcher c).maxQueueSize = 50 ∧ (mkBatcher e k iv cb).maxQueueSize = 50 :=
  ⟨rfl, rfl⟩

/-- C8: every full execution of `flush()` from an idle state ends with
`isProcessing = false` — the transport outcome `o` covers success,
failure, rejection and a synchronous throw of the callback, since all of
them funnel into the same `catch`, and the `finally` block clears the
flag in every case — so no single delivery failure blocks later flushes:
a subsequent `flush()` on the resulting state with a non-empty queue
again hands its snapshot to the transport. -/
theorem flush_always_clears_processing (s : BState) (o : Bool)
    (hproc : s.isProcessing = false) :
    (resolveStep o (flushBeginStep s)).isProcessing = false ∧
    ((resolveStep o (flushBeginStep s)).queue ≠ [] →
      (flushBeginStep (resolveStep o (flushBeginStep s))).sent
        = (resolveStep o (flushBeginStep s)).sent
          ++ [(resolveStep o (flushBeginStep s)).queue]) := by
  have h1 : (resolveStep o (flushBeginStep s)).isProcessing = false := by
    by_cases hq : s.queue = []
    · have hfb : flushBeginStep s = s := by simp [flushBeginStep, hq]
      rw [hfb]
      cases hif : s.inFlight with
      | none => rw [resolveStep_none o s hif]; exact hproc
      | some b => exact resolveStep_some_processing o s b hif
    · rw [flushBeginStep_run s hproc hq]
      exact resolveStep_some_processing o _ s.queue rfl
  refine ⟨h1, fun hr => ?_⟩
  rw [flushBeginStep_run _ h1 hr]

/-- Witness for C8 at a concrete state, on the failure path (the resolved
queue is non-empty because the failed batch's tail was re-inserted). -/
theorem flush_always_clears_processing_witness :
    (resolveStep false (flushBeginStep c1State)).isProcessing = false ∧
    (flushBeginStep (resolveStep false (flushBeginStep c1State))).sent
      = (resolveStep false (flushBeginStep c1State)).sent
        ++ [(resolveStep false (flushBeginStep c1State)).queue] := by
  have h := flush_always_clears_processing c1State false (by decide)
  exact ⟨h.1, h.2 (by decide)⟩

/-- The C9 scenario: an event is added and flushed; while the flush is
suspended awaiting the transport a second event is added; `clear()` then
empties the queue. -/
def c9Cleared : BState :=
  clearStep (addStep (JSData.obj [("b", "2")]) 2
    (flushBeginStep (addStep (JSData.obj [("a", "1")]) 1
      (mkBatcher "https://e" "k" 30000 false))))

/-- C9: `clear()` empties the queue and touches nothing else — the
processing flag, the in-flight batch and the periodic timer are all
unchanged — and it is not final: in the `c9Cleared` execution the queue
is empty right after `clear()`, but the suspended flush then fails and
re-inserts the failed batch's tail, so the queue size is 1 > 0 with no
`add` after the `clear()`. -/
theorem clear_not_final (s : BState) :
    clearStep s = { s with queue := [] } ∧
    (clearStep s).isProcessing = s.isProcessing ∧
    (clearStep s).intervalActive = s.intervalActive ∧
    (clearStep s).inFlight = s.inFlight ∧
    getQueueSize c9Cleared = 0 ∧
    getQueueSize (resolveStep false c9Cleared) = 1 :=
  ⟨rfl, rfl, rfl, rfl, by decide, by decide⟩

set_option maxRecDepth 20000 in
/-- C10: `destroy()` does not disable the instance.  It equals exactly
"clear the interval handle, then run the synchronous prefix of one final
flush"; afterwards the timer never fires again (`timerTick` is a no-op
with the handle cleared), but `add` and `flush` behave on the destroyed
instance exactly as on the live one (they commute with clearing the
handle), so adds still enqueue and can still trigger a capacity flush
and `flush()` still attempts delivery: concretely, 50 adds after
destroying a fresh batcher still hand exactly one 50-event snapshot to
the transport. -/
theorem destroy_not_disabling (s : BState) (d : JSData) (t : Nat) :
    destroyStep s = flushBeginStep { s with intervalActive := false } ∧
    (destroyStep s).intervalActive = false ∧
    timerTick { s with intervalActive := false }
      = { s with intervalActive := false } ∧
    addStep d t { s with intervalActive := false }
      = { addStep d t s with intervalActive := false } ∧
    flushBeginStep { s with intervalActive := false }
      = { flushBeginStep s with intervalActive := false } ∧
    (addAll (natEvents 50)
      (destroyStep (mkBatcher "https://e" "k" 5 false))).sent.length = 1 ∧
    (addAll (natEvents 50)
      (destroyStep (mkBatcher "https://e" "k" 5 false))).isProcessing = true := by
  refine ⟨rfl, ?_, by simp [timerTick], addStep_intervalOff d t s,
    flushBeginStep_intervalOff s, by decide, by decide⟩
  rw [show destroyStep s = flushBeginStep { s with intervalActive := false } from rfl,
    flushBeginStep_intervalOff s]

end SDK
